import Mathlib

/-!
Shallow embedding of the job-application tracker's core state logic:
the optimistic Job Store (add / update / delete with remote persistence),
the view partitioner (applications vs. offers), the status-transition
notifier with its unread flag, the content-generation fallbacks, and the
debounced resume autosave. Definitions are translated from the TypeScript
source (App.tsx, components/JobTracker.tsx, services/geminiService.ts,
types.ts); asynchronous remote calls are modelled by passing their result
(success / failure) as an explicit argument, and React state updates by
explicit state-passing functions.
-/

namespace ResumeApp

/-- The six job statuses of `JobStatus` in types.ts
(string enum Applied / Interview / Offer / Rejected / Draft / Accepted). -/
inductive JobStatus where
  | applied
  | interview
  | offer
  | rejected
  | draft
  | accepted
  deriving DecidableEq, Repr

/-- The `origin` taxonomy of a job record: `'application' | 'offer'` in types.ts. -/
inductive Origin where
  | application
  | offer
  deriving DecidableEq, Repr

/-- The `Job` interface of types.ts. `interviewGuide` and `origin` are the two
optional fields there. -/
structure Job where
  id : String
  company : String
  role : String
  location : String
  salary : String
  status : JobStatus
  dateApplied : String
  description : String
  coverLetter : String
  interviewGuide : Option String
  email : String
  origin : Option Origin
  deriving DecidableEq, Repr

/-- The role of a chat message: `'user' | 'model'` in types.ts. -/
inductive MsgRole where
  | user
  | model
  deriving DecidableEq, Repr

/-- The `Message` interface of types.ts. -/
structure Message where
  id : String
  role : MsgRole
  text : String
  deriving DecidableEq, Repr

/-- The `ViewState` enum of types.ts. -/
inductive ViewState where
  | dashboard
  | jobs
  | offers
  | resume
  | avatar
  | claire
  deriving DecidableEq, Repr

/-- The pieces of App.tsx component state the job-store / notifier logic
touches: `jobs`, `claireMessages`, `unreadClaire`, `currentView`. -/
structure AppState where
  jobs : List Job
  claireMessages : List Message
  unreadClaire : Bool
  currentView : ViewState
  deriving DecidableEq, Repr

/-! ### Job Store (App.tsx `handleAddJob` / `handleUpdateJob` / `handleDeleteJob`) -/

/-- The optimistic insert of `handleAddJob` (App.tsx): the submitted job with a
temporary id is put at the head of the collection. -/
def addJobOptimistic (tempId : String) (job : Job) (prev : List Job) : List Job :=
  { job with id := tempId } :: prev

/-- The success path of `handleAddJob`: every record carrying the temporary id is
replaced in place by the submitted job with the store-assigned id
(`setJobs(prev => prev.map(j => j.id === tempId ? realJob : j))`). -/
def addJobSuccess (tempId newId : String) (job : Job) (s : List Job) : List Job :=
  s.map (fun j => if j.id == tempId then { job with id := newId } else j)

/-- The failure path of `handleAddJob`: the optimistic record is removed
(`setJobs(prev => prev.filter(j => j.id !== tempId))`). -/
def addJobFailure (tempId : String) (s : List Job) : List Job :=
  s.filter (fun j => !(j.id == tempId))

/-- `handleAddJob` of App.tsx as a function of the remote insert's outcome:
`Except.ok newId` models a successful insert returning the store id,
`Except.error ()` a failed one. -/
def handleAddJob (tempId : String) (job : Job) (prev : List Job)
    (persist : Except Unit String) : List Job :=
  match persist with
  | Except.ok newId => addJobSuccess tempId newId job (addJobOptimistic tempId job prev)
  | Except.error _ => addJobFailure tempId (addJobOptimistic tempId job prev)

/-- The accepted-offer message template of `handleJobStatusChangeNotification`
(App.tsx line 235; the template literal's interpolations become appends). -/
def acceptedMessageText (job : Job) : String :=
  "ðŸŽ‰ Congratulations! I noticed you accepted an offer for the **" ++ job.role ++
    "** position at **" ++ job.company ++
    "**! That is absolutely fantastic news! Do you need any tips on salary negotiation or preparing for your first day?"

/-- The rejection message template of `handleJobStatusChangeNotification`
(App.tsx line 237). -/
def rejectedMessageText (job : Job) : String :=
  "I saw the update about the **" ++ job.role ++ "** role at **" ++ job.company ++
    "**. I know that can be disappointing, but don't let it discourage you. Rejection is often just redirection. ðŸ¦ Would you like to analyze the job description together to see if there are any skills we can highlight better for next time?"

/-- `handleJobStatusChangeNotification` of App.tsx. `msgId` stands for the
`Date.now().toString()` message id. Appends the templated assistant message and
raises the unread flag (only when the chat view is not active) for transitions
into Accepted or Rejected. -/
def handleJobStatusChangeNotification (job : Job) (newStatus : JobStatus)
    (msgId : String) (s : AppState) : AppState :=
  if newStatus = JobStatus.accepted ∨ newStatus = JobStatus.rejected then
    let messageText : String :=
      if newStatus = JobStatus.accepted then acceptedMessageText job
      else if newStatus = JobStatus.rejected then rejectedMessageText job
      else ""
    if messageText ≠ "" then
      { s with
        claireMessages :=
          s.claireMessages ++ [{ id := msgId, role := MsgRole.model, text := messageText }],
        unreadClaire :=
          if s.currentView ≠ ViewState.claire then true else s.unreadClaire }
    else s
  else s

/-- The assistant message a notifiable transition appends: role model, text from
the template matching the new status (Accepted, else Rejected). -/
def transitionMessage (job : Job) (newStatus : JobStatus) (mid : String) : Message :=
  { id := mid, role := MsgRole.model,
    text :=
      if newStatus = JobStatus.accepted then acceptedMessageText job
      else rejectedMessageText job }

/-- `handleUpdateJob` of App.tsx: the optimistic map over the collection, then the
status-change check against the pre-update snapshot (`jobs.find`), then the
remote update whose outcome (`persistOk`) is only logged. Returns the new state
and whether an error was reported (`console.error` on the catch path). -/
def handleUpdateJob (job : Job) (msgId : String) (persistOk : Bool)
    (s : AppState) : AppState × Bool :=
  let s1 := { s with jobs := s.jobs.map (fun j => if j.id == job.id then job else j) }
  let s2 :=
    match s.jobs.find? (fun j => j.id == job.id) with
    | some oldJob =>
        if oldJob.status ≠ job.status then
          handleJobStatusChangeNotification job job.status msgId s1
        else s1
    | none => s1
  (s2, !persistOk)

/-- `handleDeleteJob` of App.tsx: optimistic removal by id; the remote delete's
outcome is only logged. Returns the new state and whether an error was
reported. -/
def handleDeleteJob (jobId : String) (persistOk : Bool) (s : AppState) : AppState × Bool :=
  ({ s with jobs := s.jobs.filter (fun j => !(j.id == jobId)) }, !persistOk)

/-- Switching the active view, combined with the App.tsx effect that clears the
unread badge whenever the Claire chat view becomes active. -/
def setCurrentView (v : ViewState) (s : AppState) : AppState :=
  let s1 := { s with currentView := v }
  if v = ViewState.claire then { s1 with unreadClaire := false } else s1

/-! ### View partitioner (JobTracker.tsx `displayedJobs`, `isJobOfferType`) -/

/-- The classification used by `displayedJobs` in JobTracker.tsx:
`job.origin || (job.status === JobStatus.OFFER ? 'offer' : 'application')`. -/
def classifyOrigin (job : Job) : Origin :=
  match job.origin with
  | some o => o
  | none => if job.status = JobStatus.offer then Origin.offer else Origin.application

/-- `displayedJobs` of JobTracker.tsx: the filter of the jobs prop by the
classification, keyed on the view mode (`true` = offers mode). -/
def displayedJobs (isOffersMode : Bool) (jobs : List Job) : List Job :=
  jobs.filter (fun job =>
    if isOffersMode then classifyOrigin job == Origin.offer
    else classifyOrigin job == Origin.application)

/-- `isJobOfferType` of JobTracker.tsx:
`job.origin === 'offer' || job.status === JobStatus.OFFER`. -/
def isJobOfferType (job : Job) : Bool :=
  job.origin == some Origin.offer || job.status == JobStatus.offer

/-! ### Generation service (geminiService.ts) and regeneration (JobTracker.tsx) -/

/-- geminiService.ts fallback when the cover-letter response has no text. -/
def coverLetterEmptyFallback : String :=
  "Could not generate cover letter. Please try again."

/-- geminiService.ts fixed placeholder returned when the cover-letter call throws. -/
def coverLetterErrorFallback : String :=
  "Error generating cover letter. Please check your API key."

/-- geminiService.ts fallback when the interview-guide response has no text. -/
def interviewGuideEmptyFallback : String :=
  "Could not generate interview guide. Please try again."

/-- geminiService.ts fixed placeholder returned when the interview-guide call throws. -/
def interviewGuideErrorFallback : String :=
  "Error generating interview guide. Please check your API key."

/-- `generateCoverLetter` of geminiService.ts as a function of the AI call's
outcome: a throwing call (`Except.error`) is caught and becomes the fixed
placeholder; a response with absent or empty text becomes the retry fallback
(`response.text || "Could not generate..."`). The function is total: it never
throws past the caller. -/
def generateCoverLetter (aiResponse : Except Unit (Option String)) : String :=
  match aiResponse with
  | Except.ok none => coverLetterEmptyFallback
  | Except.ok (some t) => if t == "" then coverLetterEmptyFallback else t
  | Except.error _ => coverLetterErrorFallback

/-- `generateInterviewGuide` of geminiService.ts, same shape as
`generateCoverLetter`. -/
def generateInterviewGuide (aiResponse : Except Unit (Option String)) : String :=
  match aiResponse with
  | Except.ok none => interviewGuideEmptyFallback
  | Except.ok (some t) => if t == "" then interviewGuideEmptyFallback else t
  | Except.error _ => interviewGuideErrorFallback

/-- `handleRegenerate` of JobTracker.tsx: picks the generator by
`isJobOfferType` and writes the returned text into the corresponding field of
the selected job. Since the service functions catch their own failures, the
surrounding try/catch of `handleRegenerate` never fires on a generation
failure; the update always carries the generator's (possibly placeholder)
string. -/
def handleRegenerate (genResult : Except Unit (Option String)) (selectedJob : Job) : Job :=
  if isJobOfferType selectedJob then
    { selectedJob with interviewGuide := some (generateInterviewGuide genResult) }
  else
    { selectedJob with coverLetter := generateCoverLetter genResult }

/-- The generation step of `handleCreateJob` in JobTracker.tsx: in offers mode
the interview guide is generated and the cover letter left empty, otherwise the
cover letter is generated and the guide left empty. Result is
(coverLetter, interviewGuide). -/
def createJobContent (isOffersMode : Bool) (genResult : Except Unit (Option String)) :
    String × String :=
  if isOffersMode then ("", generateInterviewGuide genResult)
  else (generateCoverLetter genResult, "")

/-- The record's active content field, as selected for display and download in
JobTracker.tsx (`displayContent = isInterviewGuideContent ?
selectedJob?.interviewGuide : selectedJob?.coverLetter`). -/
def activeContent (job : Job) : String :=
  if isJobOfferType job then job.interviewGuide.getD "" else job.coverLetter

/-! ### Resume autosave (App.tsx debounced effect) -/

/-- A resume experience / education entry (`ResumeSection` of types.ts). -/
structure ResumeSection where
  id : String
  title : String
  company : String
  date : String
  details : String
  deriving DecidableEq, Repr

/-- A resume project entry (`Project` of types.ts). -/
structure Project where
  id : String
  name : String
  technologies : String
  link : String
  description : String
  deriving DecidableEq, Repr

/-- The `Resume` interface of types.ts. -/
structure Resume where
  fullName : String
  email : String
  phone : String
  summary : String
  skills : String
  experience : List ResumeSection
  education : List ResumeSection
  projects : List Project
  avatar : Option String
  deriving DecidableEq, Repr

/-- The autosave quiet interval of App.tsx (`setTimeout(..., 2000)`). -/
def debounceMs : Nat := 2000

/-- The early-return guard of the App.tsx autosave effect:
`if (!session || !resume.fullName) return`. A timer is scheduled only when a
session exists and `fullName` is non-empty. -/
def autosaveGuard (session : Bool) (r : Resume) : Bool :=
  session && !(r.fullName == "")

/-- The App.tsx autosave effect over a timed sequence of resume mutations
`(time, state)` with strictly increasing times: each mutation clears the
previously scheduled timer and (when the guard passes) schedules a persist of
its state `debounceMs` later. A scheduled persist fires exactly when no further
mutation arrives before its deadline; after the last mutation the pending timer
(if any) eventually fires. Returns the persisted states in order. -/
def autosaveRuns (session : Bool) : List (Nat × Resume) → List Resume
  | [] => []
  | [(_, r)] => if autosaveGuard session r = true then [r] else []
  | (t₁, r₁) :: (t₂, r₂) :: rest =>
      if autosaveGuard session r₁ = true ∧ t₁ + debounceMs ≤ t₂ then
        r₁ :: autosaveRuns session ((t₂, r₂) :: rest)
      else
        autosaveRuns session ((t₂, r₂) :: rest)

/-! ### Concrete sample records used by witnesses and counterexamples -/

/-- A record created from the applications list (`origin = application`) whose
status has been moved to Offer. -/
def offerStatusApplicationJob : Job :=
  { id := "j1", company := "Acme", role := "Engineer", location := "Remote",
    salary := "100k", status := JobStatus.offer, dateApplied := "2026-01-01",
    description := "", coverLetter := "CL", interviewGuide := none,
    email := "", origin := some Origin.application }

/-- A legacy record lacking `origin`, with status Offer. -/
def legacyOfferJob : Job :=
  { id := "j2", company := "Globex", role := "Analyst", location := "NY",
    salary := "90k", status := JobStatus.offer, dateApplied := "2026-01-02",
    description := "", coverLetter := "", interviewGuide := some "IG",
    email := "", origin := none }

/-- A plain application record. -/
def sampleApplicationJob : Job :=
  { id := "a1", company := "Initech", role := "Developer", location := "Austin",
    salary := "120k", status := JobStatus.applied, dateApplied := "2026-01-03",
    description := "desc", coverLetter := "letter", interviewGuide := none,
    email := "hr@initech.example", origin := some Origin.application }

/-- The sample application job with its status moved to Accepted. -/
def acceptedUpdateJob : Job :=
  { sampleApplicationJob with status := JobStatus.accepted }

/-- A sample app state holding one job and one prior chat message. -/
def sampleState : AppState :=
  { jobs := [sampleApplicationJob],
    claireMessages := [{ id := "welcome", role := MsgRole.model, text := "hi" }],
    unreadClaire := false,
    currentView := ViewState.jobs }

/-- A resume with a non-empty full name. -/
def namedResume : Resume :=
  { fullName := "Ada", email := "", phone := "", summary := "", skills := "",
    experience := [], education := [], projects := [], avatar := none }

/-- A resume whose `fullName` is empty but whose other fields are non-empty. -/
def anonymousResume : Resume :=
  { fullName := "", email := "a@b.c", phone := "555", summary := "s",
    skills := "k", experience := [], education := [], projects := [],
    avatar := some "av" }

/-! ### Helper lemmas -/

theorem append_left_ne_empty (s t : String) (h : s ≠ "") : s ++ t ≠ "" := by
  intro hc
  apply h
  have hd := congrArg String.data hc
  rw [String.data_append] at hd
  rcases List.append_eq_nil.mp hd with ⟨h1, _⟩
  exact String.ext h1

theorem acceptedMessageText_ne_empty (job : Job) : acceptedMessageText job ≠ "" := by
  unfold acceptedMessageText
  exact append_left_ne_empty _ _ (append_left_ne_empty _ _ (append_left_ne_empty _ _
    (append_left_ne_empty _ _ (by decide))))

theorem rejectedMessageText_ne_empty (job : Job) : rejectedMessageText job ≠ "" := by
  unfold rejectedMessageText
  exact append_left_ne_empty _ _ (append_left_ne_empty _ _ (append_left_ne_empty _ _
    (append_left_ne_empty _ _ (by decide))))

theorem notification_preserves_jobs (job : Job) (ns : JobStatus) (mid : String)
    (s : AppState) : (handleJobStatusChangeNotification job ns mid s).jobs = s.jobs := by
  unfold handleJobStatusChangeNotification
  repeat' split
  all_goals rfl

theorem notify_accepted_eq (job : Job) (mid : String) (s : AppState) :
    handleJobStatusChangeNotification job JobStatus.accepted mid s =
      { s with
        claireMessages := s.claireMessages ++
          [{ id := mid, role := MsgRole.model, text := acceptedMessageText job }],
        unreadClaire :=
          if s.currentView ≠ ViewState.claire then true else s.unreadClaire } := by
  unfold handleJobStatusChangeNotification
  simp [acceptedMessageText_ne_empty job]

theorem notify_rejected_eq (job : Job) (mid : String) (s : AppState) :
    handleJobStatusChangeNotification job JobStatus.rejected mid s =
      { s with
        claireMessages := s.claireMessages ++
          [{ id := mid, role := MsgRole.model, text := rejectedMessageText job }],
        unreadClaire :=
          if s.currentView ≠ ViewState.claire then true else s.unreadClaire } := by
  unfold handleJobStatusChangeNotification
  simp [rejectedMessageText_ne_empty job]

theorem notify_silent_eq (job : Job) (ns : JobStatus) (mid : String) (s : AppState)
    (h1 : ns ≠ JobStatus.accepted) (h2 : ns ≠ JobStatus.rejected) :
    handleJobStatusChangeNotification job ns mid s = s := by
  unfold handleJobStatusChangeNotification
  simp [h1, h2]

/-! ### Claim theorems -/

/-- C1: for every `add(job)` whose remote persistence call fails, the job
collection after the operation completes is exactly the collection from before
the add — the optimistic record with the temporary identity is removed
entirely and all other records are unchanged (assuming the temporary identity
did not already occur in the prior collection, as with fresh `Date.now()`
ids). -/
theorem addJob_failure_rollback (tempId : String) (job : Job) (prev : List Job)
    (hfresh : ∀ j ∈ prev, j.id ≠ tempId) :
    handleAddJob tempId job prev (Except.error ()) = prev := by
  have hall : ∀ a ∈ prev, (!(a.id == tempId)) = true := by
    intro a ha
    simp [hfresh a ha]
  simp [handleAddJob, addJobFailure, addJobOptimistic, List.filter_cons,
    List.filter_eq_self.mpr hall]

/-- Witness for C1 at a concrete input. -/
theorem addJob_failure_rollback_witness :
    handleAddJob "t" sampleApplicationJob [legacyOfferJob] (Except.error ()) =
      [legacyOfferJob] :=
  addJob_failure_rollback "t" sampleApplicationJob [legacyOfferJob] (by decide)

/-- C2: for every `add(job)` whose remote persistence call succeeds and returns
identity `newId`, the collection afterwards is exactly the submitted job
carrying `newId` at the head (the position where the optimistic record was
inserted) followed by the unchanged prior records; it holds exactly one record
with identity `newId`; and the intermediate optimistic state already holds
exactly one entry for the logical record, so readers never observe two
entries (freshness of the temporary and the store-assigned identity relative
to the prior collection assumed). -/
theorem addJob_success_reconciliation (tempId newId : String) (job : Job)
    (prev : List Job) (hfresh : ∀ j ∈ prev, j.id ≠ tempId)
    (hnew : ∀ j ∈ prev, j.id ≠ newId) :
    handleAddJob tempId job prev (Except.ok newId) = { job with id := newId } :: prev ∧
    List.countP (fun j => j.id == newId)
      (handleAddJob tempId job prev (Except.ok newId)) = 1 ∧
    List.countP (fun j => j.id == tempId || j.id == newId)
      (addJobOptimistic tempId job prev) = 1 := by
  have hmap : prev.map (fun j => if j.id = tempId then { job with id := newId } else j)
      = prev := by
    have hcg := List.map_congr_left (l := prev)
      (f := fun j => if j.id = tempId then { job with id := newId } else j)
      (g := fun j => j) (fun a ha => by simp [hfresh a ha])
    simpa using hcg
  have hres : handleAddJob tempId job prev (Except.ok newId) =
      { job with id := newId } :: prev := by
    simp [handleAddJob, addJobSuccess, addJobOptimistic, hmap]
  refine ⟨hres, ?_, ?_⟩
  · rw [hres, List.countP_cons]
    have hzero : List.countP (fun j => j.id == newId) prev = 0 :=
      List.countP_eq_zero.mpr (fun a ha => by simp [hnew a ha])
    simp [hzero]
  · unfold addJobOptimistic
    rw [List.countP_cons]
    have hzero : List.countP (fun j => j.id == tempId || j.id == newId) prev = 0 :=
      List.countP_eq_zero.mpr (fun a ha => by simp [hfresh a ha, hnew a ha])
    simp [hzero]

/-- Witness for C2 at a concrete input. -/
theorem addJob_success_reconciliation_witness :
    handleAddJob "t" sampleApplicationJob [legacyOfferJob] (Except.ok "db7") =
      { sampleApplicationJob with id := "db7" } :: [legacyOfferJob] ∧
    List.countP (fun j => j.id == "db7")
      (handleAddJob "t" sampleApplicationJob [legacyOfferJob] (Except.ok "db7")) = 1 ∧
    List.countP (fun j => j.id == "t" || j.id == "db7")
      (addJobOptimistic "t" sampleApplicationJob [legacyOfferJob]) = 1 :=
  addJob_success_reconciliation "t" "db7" sampleApplicationJob [legacyOfferJob]
    (by decide) (by decide)

/-- C3: over all ordered pairs of the six status values, an `update(job)`
appends exactly one assistant message (role model, text containing the job's
role and company) if and only if the new status differs from the previously
stored status and the new status is Accepted or Rejected; every other pair
appends nothing; and the appended messages are independent of the remote
persistence outcome, i.e. the notification happens synchronously with the
optimistic apply (`oldJob` is the record `jobs.find` locates for the updated
identity). -/
theorem update_notification_table (s : AppState) (job oldJob : Job) (mid : String)
    (hfind : s.jobs.find? (fun j => j.id == job.id) = some oldJob) :
    (∀ ok : Bool, (handleUpdateJob job mid ok s).1.claireMessages =
      if oldJob.status ≠ job.status ∧
          (job.status = JobStatus.accepted ∨ job.status = JobStatus.rejected) then
        s.claireMessages ++ [transitionMessage job job.status mid]
      else s.claireMessages) ∧
    (∃ a b c : String, acceptedMessageText job = a ++ job.role ++ b ++ job.company ++ c) ∧
    (∃ a b c : String, rejectedMessageText job = a ++ job.role ++ b ++ job.company ++ c) := by
  refine ⟨?_, ⟨_, _, _, rfl⟩, ⟨_, _, _, rfl⟩⟩
  intro ok
  unfold handleUpdateJob
  simp only [hfind]
  by_cases hst : oldJob.status = job.status
  · simp [hst]
  · by_cases hacc : job.status = JobStatus.accepted
    · have hold : oldJob.status ≠ JobStatus.accepted := by
        rw [hacc] at hst
        exact hst
      simp [hst, hacc, hold, notify_accepted_eq, transitionMessage]
    · by_cases hrej : job.status = JobStatus.rejected
      · have hold : oldJob.status ≠ JobStatus.rejected := by
          rw [hrej] at hst
          exact hst
        simp [hst, hacc, hrej, hold, notify_rejected_eq, transitionMessage]
      · simp [hst, hacc, hrej, notify_silent_eq job job.status mid _ hacc hrej]

/-- Witness for C3 at a concrete input: updating the stored Applied record to
Accepted appends exactly the accepted-offer message. -/
theorem update_notification_table_witness :
    (handleUpdateJob acceptedUpdateJob "m1" true sampleState).1.claireMessages =
      sampleState.claireMessages ++
        [transitionMessage acceptedUpdateJob JobStatus.accepted "m1"] := by
  have h := (update_notification_table sampleState acceptedUpdateJob
      sampleApplicationJob "m1" (by decide)).1 true
  rw [h, if_pos (by decide)]
  rfl

/-- C6: for every `update(job)` and `delete(id)` whose remote persistence call
fails, the in-memory collection retains the optimistic change as-is (the map
keyed by identity, respectively the removal) — identical to the success path,
so no rollback occurs — and the operation reports the error; asymmetrically,
a failed `add` leaves no record with the temporary identity behind. -/
theorem update_delete_retain_optimistic (job : Job) (mid uid tempId : String)
    (s : AppState) (prev : List Job) :
    (∀ ok : Bool, (handleUpdateJob job mid ok s).1.jobs =
        s.jobs.map (fun j => if j.id == job.id then job else j)) ∧
    (handleUpdateJob job mid false s).2 = true ∧
    (∀ ok : Bool, (handleDeleteJob uid ok s).1.jobs =
        s.jobs.filter (fun j => !(j.id == uid))) ∧
    (handleDeleteJob uid false s).2 = true ∧
    (handleAddJob tempId job prev (Except.error ())).filter (fun j => j.id == tempId)
      = [] := by
  refine ⟨?_, rfl, fun ok => rfl, rfl, ?_⟩
  · intro ok
    unfold handleUpdateJob
    dsimp only
    split
    · split
      · rw [notification_preserves_jobs]
      · rfl
    · rfl
  · unfold handleAddJob addJobFailure addJobOptimistic
    rw [List.filter_filter]
    simp

/-- C7: for every content-generation attempt where the external generation call
fails, the caught failure resolves to the fixed placeholder string: the
generation functions are total (modelled by returning a `String`, never
throwing), regeneration leaves the record's active content field equal to the
matching placeholder and never empty, and creation fills the generated field
with the matching placeholder. -/
theorem generation_failure_placeholder (j : Job) :
    (generateCoverLetter (Except.error ()) = coverLetterErrorFallback ∧
     generateInterviewGuide (Except.error ()) = interviewGuideErrorFallback) ∧
    (coverLetterErrorFallback ≠ "" ∧ interviewGuideErrorFallback ≠ "") ∧
    activeContent (handleRegenerate (Except.error ()) j) =
      (if isJobOfferType j then interviewGuideErrorFallback
       else coverLetterErrorFallback) ∧
    activeContent (handleRegenerate (Except.error ()) j) ≠ "" ∧
    ((createJobContent true (Except.error ())).2 = interviewGuideErrorFallback ∧
     (createJobContent false (Except.error ())).1 = coverLetterErrorFallback) := by
  have hact : activeContent (handleRegenerate (Except.error ()) j) =
      (if isJobOfferType j then interviewGuideErrorFallback
       else coverLetterErrorFallback) := by
    by_cases h : isJobOfferType j = true
    · simp [activeContent, handleRegenerate, isJobOfferType, generateInterviewGuide,
        generateCoverLetter] at h ⊢
      simp [h]
    · simp [activeContent, handleRegenerate, isJobOfferType, generateInterviewGuide,
        generateCoverLetter] at h ⊢
      simp [h]
  refine ⟨⟨rfl, rfl⟩, ⟨by decide, by decide⟩, hact, ?_, ⟨rfl, rfl⟩⟩
  rw [hact]
  by_cases h : isJobOfferType j = true
  · simp [h]
    decide
  · simp [h]
    decide

/-- C4 counterexample: a record with `origin = application` and
`status = Offer` is partitioned as an application by `displayedJobs`
(`classifyOrigin`), yet the regeneration controller's `isJobOfferType`
classifies it as an offer — so classification is not by origin alone
everywhere. -/
theorem classification_disagrees_on_offer_status_application :
    classifyOrigin offerStatusApplicationJob = Origin.application ∧
    isJobOfferType offerStatusApplicationJob = true := by
  constructor
  · rfl
  · rfl

/-- C4 (amended): the list partitioner classifies by `origin` alone when it is
present (status only matters for records lacking `origin`), and both offer and
application views filter through that one rule; the regeneration controller,
however, uses `isJobOfferType`, which treats a record as an offer exactly when
`origin = offer` or `status = Offer` — so a record with
`origin = application` and `status = Offer` is partitioned as an application
but regenerated as an offer. -/
theorem classification_rules (j : Job) (jobs : List Job) :
    (∀ o : Origin, j.origin = some o → classifyOrigin j = o) ∧
    (j.origin = none →
      classifyOrigin j =
        (if j.status = JobStatus.offer then Origin.offer else Origin.application)) ∧
    (displayedJobs true jobs = jobs.filter (fun x => classifyOrigin x == Origin.offer)) ∧
    (displayedJobs false jobs =
      jobs.filter (fun x => classifyOrigin x == Origin.application)) ∧
    (isJobOfferType j = true ↔
      (j.origin = some Origin.offer ∨ j.status = JobStatus.offer)) := by
  refine ⟨?_, ?_, rfl, rfl, ?_⟩
  · intro o ho
    simp [classifyOrigin, ho]
  · intro ho
    simp [classifyOrigin, ho]
  · simp [isJobOfferType]

/-- Witness for C4's amended theorem at a concrete input: a legacy record with
no origin and status Offer classifies as an offer. -/
theorem classification_rules_witness :
    classifyOrigin legacyOfferJob = Origin.offer := by
  have h := (classification_rules legacyOfferJob []).2.1 rfl
  simpa using h

/-- C5: the applications view and the offers view partition any job collection
exactly: their concatenation is a permutation of the input (so the multiset of
identities is preserved), no record is in both views, each view preserves the
input's relative order (is a sublist), and — when identities are unique, as
store-assigned ids are — no identity appears in both views. -/
theorem partition_exactness (jobs : List Job)
    (hnodup : (jobs.map Job.id).Nodup) :
    List.Perm (displayedJobs true jobs ++ displayedJobs false jobs) jobs ∧
    (∀ j : Job, j ∈ displayedJobs true jobs → j ∉ displayedJobs false jobs) ∧
    (displayedJobs true jobs).Sublist jobs ∧
    (displayedJobs false jobs).Sublist jobs ∧
    (∀ i : String, i ∈ (displayedJobs true jobs).map Job.id →
      i ∉ (displayedJobs false jobs).map Job.id) := by
  have hneg : ∀ x : Job,
      (classifyOrigin x == Origin.application) = !(classifyOrigin x == Origin.offer) := by
    intro x
    cases h : classifyOrigin x
    · rfl
    · rfl
  have htrue : displayedJobs true jobs =
      jobs.filter (fun x => classifyOrigin x == Origin.offer) := rfl
  have hfalse : displayedJobs false jobs =
      jobs.filter (fun x => !(classifyOrigin x == Origin.offer)) := by
    unfold displayedJobs
    simp only [Bool.false_eq_true, if_false]
    exact List.filter_congr (fun x _ => hneg x)
  have hdisj : ∀ j : Job, j ∈ displayedJobs true jobs → j ∉ displayedJobs false jobs := by
    intro j h1 h2
    rw [htrue, List.mem_filter] at h1
    rw [hfalse, List.mem_filter] at h2
    rw [h1.2] at h2
    exact absurd h2.2 (by simp)
  refine ⟨?_, hdisj, List.filter_sublist jobs, List.filter_sublist jobs, ?_⟩
  · rw [htrue, hfalse]
    exact List.filter_append_perm _ jobs
  · intro i h1 h2
    rcases List.mem_map.mp h1 with ⟨a, ha, hai⟩
    rcases List.mem_map.mp h2 with ⟨b, hb, hbi⟩
    have haj : a ∈ jobs := (List.mem_filter.mp (htrue ▸ ha)).1
    have hbj : b ∈ jobs := (List.mem_filter.mp (hfalse ▸ hb)).1
    have hab : a = b :=
      List.inj_on_of_nodup_map hnodup haj hbj (hai.trans hbi.symm)
    exact hdisj a ha (hab ▸ hb)

/-- Witness for C5 at a concrete input. -/
theorem partition_exactness_witness :
    List.Perm
      (displayedJobs true [sampleApplicationJob, legacyOfferJob] ++
        displayedJobs false [sampleApplicationJob, legacyOfferJob])
      [sampleApplicationJob, legacyOfferJob] :=
  (partition_exactness [sampleApplicationJob, legacyOfferJob] (by decide)).1

/-- C8: the unread flag is raised by a notifiable transition exactly when the
active view is not the chat view; switching the active view to the chat view
clears the flag (also right after a transition raised it); and a notifiable
transition occurring while the chat view is already active leaves the flag
unchanged, so it never raises it. -/
theorem unread_flag_lifecycle (s : AppState) (job : Job) (ns : JobStatus)
    (mid : String) (hns : ns = JobStatus.accepted ∨ ns = JobStatus.rejected) :
    (s.currentView ≠ ViewState.claire →
      (handleJobStatusChangeNotification job ns mid s).unreadClaire = true) ∧
    (setCurrentView ViewState.claire s).unreadClaire = false ∧
    (setCurrentView ViewState.claire
      (handleJobStatusChangeNotification job ns mid s)).unreadClaire = false ∧
    (s.currentView = ViewState.claire →
      (handleJobStatusChangeNotification job ns mid s).unreadClaire
        = s.unreadClaire) := by
  have hclear : ∀ t : AppState, (setCurrentView ViewState.claire t).unreadClaire = false := by
    intro t
    simp [setCurrentView]
  have hflag : (handleJobStatusChangeNotification job ns mid s).unreadClaire =
      if s.currentView ≠ ViewState.claire then true else s.unreadClaire := by
    rcases hns with h | h
    · subst h
      rw [notify_accepted_eq]
    · subst h
      rw [notify_rejected_eq]
  refine ⟨?_, hclear s, hclear _, ?_⟩
  · intro hv
    rw [hflag, if_pos hv]
  · intro hv
    rw [hflag, if_neg (by simp [hv])]

/-- Witness for C8 at a concrete input: the sample state is on the jobs view,
so the accepted transition raises the flag, and switching to the chat view
clears it. -/
theorem unread_flag_lifecycle_witness :
    (handleJobStatusChangeNotification sampleApplicationJob JobStatus.accepted
      "m2" sampleState).unreadClaire = true ∧
    (setCurrentView ViewState.claire sampleState).unreadClaire = false ∧
    (setCurrentView ViewState.claire
      (handleJobStatusChangeNotification sampleApplicationJob JobStatus.accepted
        "m2" sampleState)).unreadClaire = false := by
  have h := unread_flag_lifecycle sampleState sampleApplicationJob
    JobStatus.accepted "m2" (Or.inl rfl)
  exact ⟨h.1 (by decide), h.2.1, h.2.2.1⟩

/-- C9: for any burst of resume mutations in which each mutation arrives within
the quiet interval of the previous one, exactly one persistence call is
issued, and it carries the state of the last mutation of the burst (each
mutation within the interval having cancelled and rescheduled the pending
persist); the guard must pass for the final state. -/
theorem autosave_debounce_burst (session : Bool) :
    ∀ (l : List (Nat × Resume)) (h : l ≠ [])
      (hchain : List.Chain' (fun a b : Nat × Resume => b.1 < a.1 + debounceMs) l)
      (hlast : autosaveGuard session (l.getLast h).2 = true),
      autosaveRuns session l = [(l.getLast h).2]
  | [], h, _, _ => absurd rfl h
  | [(t, r)], _, _, hg => by
      rw [List.getLast_singleton] at hg
      dsimp only at hg
      simp [autosaveRuns, hg]
  | (t₁, r₁) :: (t₂, r₂) :: rest, _, hchain, hg => by
      have hne : ((t₂, r₂) :: rest : List (Nat × Resume)) ≠ [] := by simp
      have hlt : t₂ < t₁ + debounceMs := (List.chain'_cons.mp hchain).1
      rw [List.getLast_cons hne] at hg
      have htail := autosave_debounce_burst session ((t₂, r₂) :: rest) hne
        (List.chain'_cons.mp hchain).2 hg
      simp only [autosaveRuns]
      rw [List.getLast_cons hne, if_neg, htail]
      intro hcon
      exact Nat.not_le.mpr hlt hcon.2

/-- Witness for C9 at a concrete input: three mutations at 0, 1000 and 1600 ms
persist only the last state. -/
theorem autosave_debounce_burst_witness :
    autosaveRuns true
      [(0, anonymousResume), (1000, anonymousResume), (1600, namedResume)]
      = [namedResume] := by
  have h := autosave_debounce_burst true
    [(0, anonymousResume), (1000, anonymousResume), (1600, namedResume)]
    (by simp)
    (List.chain'_cons.mpr ⟨by norm_num [debounceMs],
      List.chain'_cons.mpr ⟨by norm_num [debounceMs], List.chain'_singleton _⟩⟩)
    (by decide)
  exact h

/-- The autosave guard passing forces a non-empty full name. -/
theorem autosaveGuard_fullName (session : Bool) (x : Resume)
    (h : autosaveGuard session x = true) : x.fullName ≠ "" := by
  intro hemp
  unfold autosaveGuard at h
  rw [hemp] at h
  simp at h

/-- C10: the autosave guard keys on `fullName`: a resume state whose
`fullName` is the empty string is never persisted by the autosave component,
whatever its other fields hold — every persisted state has a non-empty
`fullName`. -/
theorem autosave_never_persists_empty_fullName (session : Bool) :
    ∀ (l : List (Nat × Resume)) (r : Resume),
      r ∈ autosaveRuns session l → r.fullName ≠ ""
  | [], r, hr => by simp [autosaveRuns] at hr
  | [(t, x)], r, hr => by
      by_cases hg : autosaveGuard session x = true
      · have hrx : r = x := by
          simp only [autosaveRuns, if_pos hg] at hr
          simpa using hr
        exact hrx ▸ autosaveGuard_fullName session x hg
      · simp only [autosaveRuns, if_neg hg] at hr
        simp at hr
  | (t₁, r₁) :: (t₂, r₂) :: rest, r, hr => by
      simp only [autosaveRuns] at hr
      by_cases hc : autosaveGuard session r₁ = true ∧ t₁ + debounceMs ≤ t₂
      · rw [if_pos hc] at hr
        rcases List.mem_cons.mp hr with hr1 | hr2
        · exact hr1 ▸ autosaveGuard_fullName session r₁ hc.1
        · exact autosave_never_persists_empty_fullName session ((t₂, r₂) :: rest) r hr2
      · rw [if_neg hc] at hr
        exact autosave_never_persists_empty_fullName session ((t₂, r₂) :: rest) r hr

/-- Witness for C10 at a concrete input. -/
theorem autosave_never_persists_empty_fullName_witness :
    namedResume.fullName ≠ "" :=
  autosave_never_persists_empty_fullName true [(0, namedResume)] namedResume
    (by decide)

end ResumeApp
